import Mathlib

/-!
Verification of the vibe-coordinator license lifecycle engine.

This file is a shallow embedding, in Lean 4, of the core of the
repository: the credential signer/verifier (`src/lib/license.ts`), the
payment-event gateway (`src/lib/payment-gateway.ts`), the customer and
license store (`src/lib/db.ts`), and the file-based revocation registry
(`src/lib/revocation.ts`).  Each definition is translated from the
corresponding TypeScript function; machine integers and `Date` values
are modelled as `Int` milliseconds, fallible code returns `Option` or
`Except`, and external runtime primitives (Ed25519, `TextEncoder`,
`Buffer` base64, `JSON.parse`, `uuid`) are embedded as explicit
parameters carrying exactly the properties those primitives document.
-/

namespace VibeCoordinator

/-! ## License payloads (src/lib/license.ts)

`LicensePayload` embeds the TypeScript interface of the same name:
plan, customer_id, issued_at, expires_at (ISO timestamp strings) and
offline_ttl_days (a non-negative integer; every payload built by the
repository uses 30). -/

/-- The plan union type `"FREE" | "PRO"`. -/
inductive Plan where
  | FREE : Plan
  | PRO : Plan
deriving DecidableEq, Repr

/-- The JSON string value a `Plan` serializes to. -/
def Plan.str : Plan → String
  | .FREE => "FREE"
  | .PRO => "PRO"

/-- Embeds `interface LicensePayload` from src/lib/license.ts. -/
structure LicensePayload where
  plan : Plan
  customer_id : String
  issued_at : String
  expires_at : String
  offline_ttl_days : Nat
deriving DecidableEq, Repr

/-- Embeds `interface SignedLicense extends LicensePayload`: the payload
fields plus a base64 `signature` string.  The TypeScript object spread
`{...payload, signature}` and the destructuring
`const {signature, ...payload} = license` are the two components of this
structure. -/
structure SignedLicense where
  toPayload : LicensePayload
  signature : String
deriving DecidableEq, Repr

/-- Milliseconds in a day, the `24 * 60 * 60 * 1000` factor used
throughout the source. -/
def msPerDay : Int := 24 * 60 * 60 * 1000

/-- Embeds `isWithinOfflineTTL` from src/lib/license.ts.  `lastVerified`
and `now` are `Date` values modelled as milliseconds since the epoch
(`Date.getTime()`); `new Date() < deadline` compares those numbers. -/
def isWithinOfflineTTL (license : SignedLicense) (lastVerified now : Int) : Bool :=
  let ttlMs : Int := (license.toPayload.offline_ttl_days : Int) * msPerDay
  let deadline : Int := lastVerified + ttlMs
  now < deadline

/-! ## Canonical JSON serialization (src/lib/license.ts, `canonicalize`)

The source canonicalizes with
`JSON.stringify(obj, Object.keys(obj).sort())`: per the ECMAScript
`JSON.stringify` algorithm a replacer array becomes the property list,
so exactly the listed keys are serialized, in the listed (= sorted)
order, with compact output.  A JS object is embedded as its
insertion-ordered association list with unique keys; JSON values here
are the two shapes license payloads use, strings and non-negative
integers. -/

/-- JSON values appearing in a license payload object. -/
inductive JsonValue where
  | str (s : String) : JsonValue
  | num (n : Nat) : JsonValue
deriving DecidableEq, Repr

/-- JS property access `obj[k]` over the insertion-ordered association
list: the first binding of the key (keys are unique in a JS object). -/
def lookupKey (k : String) : List (String × JsonValue) → Option JsonValue
  | [] => none
  | (k', v) :: rest => if k' = k then some v else lookupKey k rest

/-- Lowercase hex digit, as produced by the `\u00XX` escapes of
`JSON.stringify`. -/
def hexDig (n : Nat) : Char :=
  if n < 10 then Char.ofNat (48 + n) else Char.ofNat (87 + n)

/-- Decimal digit character. -/
def digCh (d : Nat) : Char := Char.ofNat (48 + d)

/-- One character of the JSON string-literal encoding (ECMAScript
`QuoteJSONString`): quote and backslash are escaped, the five control
characters with shorthand escapes use them, all other control
characters use `\u00XX`, and every other character stands for
itself. -/
def escChar (c : Char) : List Char :=
  if c = '"' then ['\\', '"']
  else if c = '\\' then ['\\', '\\']
  else if c.toNat = 8 then ['\\', 'b']
  else if c.toNat = 9 then ['\\', 't']
  else if c.toNat = 10 then ['\\', 'n']
  else if c.toNat = 12 then ['\\', 'f']
  else if c.toNat = 13 then ['\\', 'r']
  else if c.toNat < 32 then ['\\', 'u', '0', '0', hexDig (c.toNat / 16), hexDig (c.toNat % 16)]
  else [c]

/-- JSON string-literal body: each character escaped in sequence. -/
def escData : List Char → List Char
  | [] => []
  | c :: rest => escChar c ++ escData rest

/-- A complete JSON string literal: `"` body `"`. -/
def quoteData (s : List Char) : List Char := '"' :: (escData s ++ ['"'])

/-- Decimal digit string of a non-negative integer, as JS `Number`
serialization produces for the integers stored in a payload. -/
def natChars (n : Nat) : List Char :=
  if _h : n < 10 then [digCh n] else natChars (n / 10) ++ [digCh (n % 10)]
termination_by n
decreasing_by exact Nat.div_lt_self (by omega) (by omega)

/-- Serialization of a single JSON value. -/
def serValData : JsonValue → List Char
  | .str s => quoteData s.data
  | .num n => natChars n

/-- Comma-join of the serialized members of a JSON object. -/
def commaJoin : List (List Char) → List Char
  | [] => []
  | [x] => x
  | x :: y :: rest => x ++ ',' :: commaJoin (y :: rest)

/-- Compact `JSON.stringify(obj, props)`: the keys of the replacer
array, in order, each serialized as `"key":value` when present on the
object, joined by commas inside braces. -/
def stringifyData (props : List String) (obj : List (String × JsonValue)) : List Char :=
  Char.ofNat 123 ::
    (commaJoin (props.filterMap fun k =>
      (lookupKey k obj).map fun v => quoteData k.data ++ ':' :: serValData v)
    ++ [Char.ofNat 125])

/-- Code-unit lexicographic comparison of strings, the comparison JS
`Array.prototype.sort()` applies to string elements. -/
def lexLe : List Char → List Char → Bool
  | [], _ => true
  | _ :: _, [] => false
  | a :: as, b :: bs =>
    if a.toNat < b.toNat then true
    else if b.toNat < a.toNat then false
    else lexLe as bs

/-- `lexLe` on the character data of two strings. -/
def strLeB (a b : String) : Bool := lexLe a.data b.data

/-- `Object.keys(obj).sort()`: JS default sort, code-unit lexicographic
on strings. -/
def sortStrings (l : List String) : List String :=
  List.insertionSort (fun a b : String => strLeB a b = true) l

/-- Embeds `canonicalize` from src/lib/license.ts:
`JSON.stringify(obj, Object.keys(obj).sort())`. -/
def canonicalize (obj : List (String × JsonValue)) : String :=
  String.mk (stringifyData (sortStrings (obj.map Prod.fst)) obj)

/-- The JS object a `LicensePayload` literal denotes, with the insertion
order used by every constructor in the repository (payment-gateway.ts
and the license issue route): plan, customer_id, issued_at, expires_at,
offline_ttl_days. -/
def payloadToObj (p : LicensePayload) : List (String × JsonValue) :=
  [("plan", .str p.plan.str),
   ("customer_id", .str p.customer_id),
   ("issued_at", .str p.issued_at),
   ("expires_at", .str p.expires_at),
   ("offline_ttl_days", .num p.offline_ttl_days)]

/-! ## External runtime primitives

The signer calls four runtime primitives that are external libraries,
not repository code: `TextEncoder.encode` (UTF-8 bytes of a string,
injective), `Buffer` base64 encode/decode (decode is a left inverse of
encode), `JSON.parse` of a submitted credential blob (used by the
`/v1/license/verify` route; no properties are assumed), and
`@noble/ed25519`.  They are embedded as explicit parameters carrying
exactly those documented properties.  Ed25519 is deterministic: a
signature verifies under a public key exactly when it is the signature
of that message under the corresponding secret key, distinct messages
or keys never share signatures, and public keys determine secret
keys. -/

/-- The JS runtime primitives used by the signer/verifier. -/
structure JsRuntime where
  utf8 : String → List Nat
  utf8_inj : ∀ s t : String, utf8 s = utf8 t → s = t
  b64encode : List Nat → String
  b64decode : String → List Nat
  b64_roundtrip : ∀ bs : List Nat, b64decode (b64encode bs) = bs
  parseSigned : String → Option SignedLicense

/-- An idealized deterministic signature scheme (Ed25519). -/
structure SigScheme (SK : Type) where
  sign : SK → List Nat → List Nat
  pub : SK → List Nat
  vrfy : List Nat → List Nat → List Nat → Bool
  vrfy_sign : ∀ (sk : SK) (m : List Nat), vrfy (sign sk m) m (pub sk) = true
  vrfy_sound : ∀ (s m pk : List Nat), vrfy s m pk = true →
    ∃ sk : SK, pk = pub sk ∧ s = sign sk m
  sign_injective : ∀ (sk sk' : SK) (m m' : List Nat),
    sign sk m = sign sk' m' → sk = sk' ∧ m = m'
  pub_inj : ∀ sk sk' : SK, pub sk = pub sk' → sk = sk'

/-- Embeds `signLicense` from src/lib/license.ts: canonicalize the
payload, sign the UTF-8 bytes of the canonical string with the
configured private key, and return the payload together with the
base64-encoded signature (`{...payload, signature}`). -/
def signLicense {SK : Type} (R : JsRuntime) (S : SigScheme SK) (sk : SK)
    (payload : LicensePayload) : SignedLicense :=
  { toPayload := payload,
    signature := R.b64encode (S.sign sk (R.utf8 (canonicalize (payloadToObj payload)))) }

/-- Embeds `verifyLicense` from src/lib/license.ts: strip the
`signature` field, recompute the canonical message from the remaining
fields, base64-decode the signature and verify against the configured
public key.  Every step of the embedding is total, and the source wraps
the body in `try/catch { return false }`, so verification never
throws. -/
def verifyLicense {SK : Type} (R : JsRuntime) (S : SigScheme SK) (pk : List Nat)
    (license : SignedLicense) : Bool :=
  S.vrfy (R.b64decode license.signature)
    (R.utf8 (canonicalize (payloadToObj license.toPayload))) pk

/-- Embeds the parse step of the `/v1/license/verify` route: the
submitted blob is base64+JSON decoded inside `try/catch`; a blob that
does not parse is rejected (`INVALID_FORMAT`), otherwise the parsed
license is verified. -/
def verifyLicenseEncoded {SK : Type} (R : JsRuntime) (S : SigScheme SK) (pk : List Nat)
    (blob : String) : Bool :=
  match R.parseSigned blob with
  | none => false
  | some license => verifyLicense R S pk license

/-! ## Order independence of canonicalization -/

/-- Property lookup is invariant under permutation of an object's
bindings when keys are unique. -/
theorem lookupKey_perm (k : String) {o o' : List (String × JsonValue)}
    (hp : o.Perm o') (hnd : (o.map Prod.fst).Nodup) :
    lookupKey k o = lookupKey k o' := by
  induction hp with
  | nil => rfl
  | cons x h ih =>
    simp only [List.map_cons, List.nodup_cons] at hnd
    obtain ⟨k', v⟩ := x
    by_cases hk : k' = k
    · simp [lookupKey, hk]
    · simp [lookupKey, hk, ih hnd.2]
  | swap x y l =>
    simp only [List.map_cons, List.nodup_cons, List.mem_cons] at hnd
    obtain ⟨k₁, v₁⟩ := x
    obtain ⟨k₂, v₂⟩ := y
    have hne : k₂ ≠ k₁ := fun h => hnd.1 (Or.inl h)
    by_cases h₂ : k₂ = k
    · have h₁ : ¬(k₁ = k) := fun h => hne (h₂.trans h.symm)
      simp [lookupKey, h₂, h₁]
    · by_cases h₁ : k₁ = k
      · simp [lookupKey, h₁, h₂]
      · simp [lookupKey, h₁, h₂]
  | trans h₁ h₂ ih₁ ih₂ =>
    have hnd₂ := ((h₁.map Prod.fst).nodup_iff).mp hnd
    exact (ih₁ hnd).trans (ih₂ hnd₂)

theorem lexLe_total : ∀ x y : List Char, lexLe x y = true ∨ lexLe y x = true := by
  intro x
  induction x with
  | nil => intro y; left; rfl
  | cons c cs ih =>
    intro y
    cases y with
    | nil => right; rfl
    | cons d ds =>
      rcases Nat.lt_trichotomy c.toNat d.toNat with h | h | h
      · left; simp [lexLe, h]
      · rcases ih ds with h' | h'
        · left; simp [lexLe, h, h']
        · right; simp [lexLe, h, h']
      · right; simp [lexLe, h]

theorem lexLe_trans : ∀ x y z : List Char,
    lexLe x y = true → lexLe y z = true → lexLe x z = true := by
  intro x
  induction x with
  | nil => intro y z _ _; rfl
  | cons a as ih =>
    intro y z h1 h2
    cases y with
    | nil => simp [lexLe] at h1
    | cons b bs =>
      cases z with
      | nil => simp [lexLe] at h2
      | cons c cs =>
        simp only [lexLe] at h1 h2 ⊢
        rcases Nat.lt_trichotomy a.toNat b.toNat with hab | hab | hab
        · rcases Nat.lt_trichotomy b.toNat c.toNat with hbc | hbc | hbc
          · rw [if_pos (by omega)]
          · rw [if_pos (by omega)]
          · rw [if_neg (by omega), if_pos hbc] at h2
            exact absurd h2 (by simp)
        · rw [if_neg (by omega), if_neg (by omega)] at h1
          rcases Nat.lt_trichotomy b.toNat c.toNat with hbc | hbc | hbc
          · rw [if_pos (by omega)]
          · rw [if_neg (by omega), if_neg (by omega)] at h2
            rw [if_neg (by omega), if_neg (by omega)]
            exact ih bs cs h1 h2
          · rw [if_neg (by omega), if_pos hbc] at h2
            exact absurd h2 (by simp)
        · rw [if_neg (by omega), if_pos hab] at h1
          exact absurd h1 (by simp)

theorem lexLe_antisymm : ∀ x y : List Char,
    lexLe x y = true → lexLe y x = true → x = y := by
  intro x
  induction x with
  | nil =>
    intro y _ h2
    cases y with
    | nil => rfl
    | cons b bs => simp [lexLe] at h2
  | cons a as ih =>
    intro y h1 h2
    cases y with
    | nil => simp [lexLe] at h1
    | cons b bs =>
      simp only [lexLe] at h1 h2
      rcases Nat.lt_trichotomy a.toNat b.toNat with hab | hab | hab
      · rw [if_neg (by omega), if_pos hab] at h2
        exact absurd h2 (by simp)
      · rw [if_neg (by omega), if_neg (by omega)] at h1 h2
        have hc : a = b := by
          have h := congrArg Char.ofNat hab
          rwa [Char.ofNat_toNat, Char.ofNat_toNat] at h
        rw [hc, ih bs h1 h2]
      · rw [if_neg (by omega), if_pos hab] at h1
        exact absurd h1 (by simp)

instance lexTotal : IsTotal String (fun a b : String => strLeB a b = true) :=
  ⟨fun a b => lexLe_total a.data b.data⟩

instance lexTrans : IsTrans String (fun a b : String => strLeB a b = true) :=
  ⟨fun a b c h1 h2 => lexLe_trans a.data b.data c.data h1 h2⟩

instance lexAntisymm : IsAntisymm String (fun a b : String => strLeB a b = true) :=
  ⟨fun a b h1 h2 => String.ext (lexLe_antisymm a.data b.data h1 h2)⟩

/-- Sorting is determined by the multiset of elements. -/
theorem sortStrings_perm_eq {l l' : List String} (h : l.Perm l') :
    sortStrings l = sortStrings l' := by
  unfold sortStrings
  exact List.eq_of_perm_of_sorted
    ((List.perm_insertionSort _ l).trans (h.trans (List.perm_insertionSort _ l').symm))
    (List.sorted_insertionSort _ l) (List.sorted_insertionSort _ l')

/-- Pointwise-equal partial functions give equal filterMaps. -/
theorem filterMapCongr {α β : Type} {f g : α → Option β} :
    ∀ l : List α, (∀ a ∈ l, f a = g a) → l.filterMap f = l.filterMap g := by
  intro l
  induction l with
  | nil => intro; rfl
  | cons a rest ih =>
    intro h
    simp only [List.filterMap_cons, h a (List.mem_cons_self a rest),
      ih fun b hb => h b (List.mem_cons_of_mem a hb)]

/-! ## Concrete runtime instances

One concrete instantiation of the runtime-primitive parameters, used to
evaluate the abstract theorems on closed inputs: byte strings are
encoded in unary (decode is a verified left inverse), UTF-8 is modelled
by the injective codepoint listing, and the deterministic scheme tags a
message with the secret key. -/

/-- Unary encoding of a byte list: each byte as a run of ones closed by
a zero. -/
def unaryEnc : List Nat → List Char
  | [] => []
  | n :: rest => List.replicate n '1' ++ '0' :: unaryEnc rest

/-- Decoder for `unaryEnc`, counting ones. -/
def unaryDecAux : List Char → Nat → List Nat
  | [], _ => []
  | c :: rest, acc =>
    if c = '0' then acc :: unaryDecAux rest 0 else unaryDecAux rest (acc + 1)

theorem unaryDecAux_replicate (n : Nat) (rest : List Char) (acc : Nat) :
    unaryDecAux (List.replicate n '1' ++ '0' :: rest) acc
      = (acc + n) :: unaryDecAux rest 0 := by
  induction n generalizing acc with
  | zero => simp [unaryDecAux]
  | succ k ih =>
    rw [List.replicate_succ]
    show unaryDecAux ('1' :: (List.replicate k '1' ++ '0' :: rest)) acc = _
    rw [unaryDecAux, if_neg (by decide), ih]
    congr 1
    omega

theorem unary_roundtrip (bs : List Nat) : unaryDecAux (unaryEnc bs) 0 = bs := by
  induction bs with
  | nil => rfl
  | cons n rest ih => simp [unaryEnc, unaryDecAux_replicate, ih]

theorem charToNat_inj : Function.Injective Char.toNat := by
  intro a b h
  have := congrArg Char.ofNat h
  rwa [Char.ofNat_toNat, Char.ofNat_toNat] at this

/-- A concrete `JsRuntime` witness instance. -/
def jsRuntime₀ : JsRuntime where
  utf8 := fun s => s.data.map Char.toNat
  utf8_inj := by
    intro s t h
    apply String.ext
    exact List.map_injective_iff.mpr charToNat_inj h
  b64encode := fun bs => String.mk (unaryEnc bs)
  b64decode := fun s => unaryDecAux s.data 0
  b64_roundtrip := fun bs => unary_roundtrip bs
  parseSigned := fun _ => none

/-- A concrete deterministic `SigScheme` witness instance. -/
def sigScheme₀ : SigScheme Nat where
  sign := fun sk m => sk :: m
  pub := fun sk => [sk]
  vrfy := fun s m pk =>
    match s with
    | [] => false
    | a :: rest => decide (pk = [a] ∧ rest = m)
  vrfy_sign := by intro sk m; simp
  vrfy_sound := by
    intro s m pk h
    match s with
    | [] => simp at h
    | a :: rest =>
      simp only [decide_eq_true_eq] at h
      exact ⟨a, h.1, by rw [h.2]⟩
  sign_injective := by intro sk sk' m m' h; simpa using h
  pub_inj := by intro sk sk' h; simpa using h

/-- C3: canonicalization is order-independent: two license payload
objects with equal bindings in permuted insertion order produce the
same canonical compact-JSON string with lexicographically sorted keys,
hence the same UTF-8 byte sequence, hence the same pre-signature
message bytes under any key. -/
theorem canonicalize_order_independent {SK : Type} (R : JsRuntime) (S : SigScheme SK)
    (sk : SK) (o o' : List (String × JsonValue))
    (hnd : (o.map Prod.fst).Nodup) (hp : o.Perm o') :
    canonicalize o = canonicalize o' ∧
    R.utf8 (canonicalize o) = R.utf8 (canonicalize o') ∧
    S.sign sk (R.utf8 (canonicalize o)) = S.sign sk (R.utf8 (canonicalize o')) := by
  have hkeys : (o.map Prod.fst).Perm (o'.map Prod.fst) := hp.map Prod.fst
  have hsort := sortStrings_perm_eq hkeys
  have hcanon : canonicalize o = canonicalize o' := by
    unfold canonicalize stringifyData
    rw [hsort]
    rw [filterMapCongr (f := fun k =>
        (lookupKey k o).map fun v => quoteData k.data ++ ':' :: serValData v)
      (g := fun k =>
        (lookupKey k o').map fun v => quoteData k.data ++ ':' :: serValData v)
      (sortStrings (o'.map Prod.fst))
      fun k _ => congrArg (Option.map fun v => quoteData k.data ++ ':' :: serValData v)
        (lookupKey_perm k hp hnd)]
  exact ⟨hcanon, by rw [hcanon], by rw [hcanon]⟩

/-- A two-field payload object and its key-permuted form. -/
def permObjA : List (String × JsonValue) :=
  [("plan", .str "PRO"), ("customer_id", .str "c1")]

/-- The same bindings as `permObjA` in the opposite insertion order. -/
def permObjB : List (String × JsonValue) :=
  [("customer_id", .str "c1"), ("plan", .str "PRO")]

/-- Witness for C3 at a concrete pair of permuted objects. -/
theorem canonicalize_order_independent_witness :
    ((permObjA.map Prod.fst).Nodup ∧ permObjA.Perm permObjB) ∧
    canonicalize permObjA = canonicalize permObjB := by
  refine ⟨⟨by decide, by decide⟩, ?_⟩
  exact (canonicalize_order_independent jsRuntime₀ sigScheme₀ 0 permObjA permObjB
    (by decide) (by decide)).1

/-! ## Injectivity of canonicalization on payloads

The converse direction needed for tamper rejection: distinct payloads
canonicalize to distinct strings.  The proof follows the codec
discipline: a scanner (decoder) for JSON string literals and for
decimal integers is a verified left inverse of the corresponding
encoder, so each serialized segment of the canonical string can be
cancelled in turn. -/

/-- Numeric value of a hex digit character. -/
def hexVal (c : Char) : Nat := if c.toNat ≤ 57 then c.toNat - 48 else c.toNat - 87

/-- Prepend a decoded character to a scanner result. -/
def mapConsFst (c : Char) : Option (List Char × List Char) → Option (List Char × List Char)
  | none => none
  | some (s, r) => some (c :: s, r)

/-- Decode a four-hex-digit escape tail. -/
def scanHex : List Char → Option (Char × List Char)
  | h₁ :: h₂ :: h₃ :: h₄ :: r' =>
    some (Char.ofNat (hexVal h₁ * 4096 + hexVal h₂ * 256 + hexVal h₃ * 16 + hexVal h₄), r')
  | _ => none

/-- Decode one escape sequence body (after the backslash). -/
def scanEsc : List Char → Option (Char × List Char)
  | [] => none
  | d :: r =>
    if d = '"' then some ('"', r)
    else if d = '\\' then some ('\\', r)
    else if d = 'b' then some (Char.ofNat 8, r)
    else if d = 't' then some (Char.ofNat 9, r)
    else if d = 'n' then some (Char.ofNat 10, r)
    else if d = 'f' then some (Char.ofNat 12, r)
    else if d = 'r' then some (Char.ofNat 13, r)
    else if d = 'u' then scanHex r
    else none

/-- Fuel-indexed scanner for the body of a JSON string literal up to its
closing quote. -/
def scanStrAux : Nat → List Char → Option (List Char × List Char)
  | 0, _ => none
  | n + 1, l =>
    match l with
    | [] => none
    | c :: rest =>
      if c = '"' then some ([], rest)
      else if c = '\\' then
        match scanEsc rest with
        | none => none
        | some (ch, r') => mapConsFst ch (scanStrAux n r')
      else mapConsFst c (scanStrAux n rest)

theorem hexVal_hexDig (m : Nat) (hm : m < 16) : hexVal (hexDig m) = m := by
  interval_cases m <;> decide

/-- Round-trip: scanning the escaped body followed by the closing quote
recovers the original characters and the trailing input. -/
theorem scanStrAux_esc (s : List Char) : ∀ (n : Nat) (r : List Char), s.length < n →
    scanStrAux n (escData s ++ '"' :: r) = some (s, r) := by
  induction s with
  | nil =>
    intro n r hn
    match n, hn with
    | m + 1, _ =>
      show scanStrAux (m + 1) ('"' :: r) = some ([], r)
      rw [scanStrAux, if_pos rfl]
  | cons c cs ih =>
    intro n r hn
    match n, hn with
    | m + 1, hn =>
      have hm : cs.length < m := by simpa using hn
      have step : ∀ CH : Char, CH = c →
          mapConsFst CH (scanStrAux m (escData cs ++ '"' :: r)) = some (c :: cs, r) := by
        intro CH hC
        rw [ih m r hm, hC]
        rfl
      show scanStrAux (m + 1) (escChar c ++ escData cs ++ '"' :: r) = some (c :: cs, r)
      unfold escChar
      by_cases h1 : c = '"'
      · rw [if_pos h1]
        show scanStrAux (m + 1) ('\\' :: '"' :: (escData cs ++ '"' :: r)) = _
        rw [scanStrAux, if_neg (by decide), if_pos rfl, scanEsc, if_pos rfl]
        exact step '"' h1.symm
      · rw [if_neg h1]
        by_cases h2 : c = '\\'
        · rw [if_pos h2]
          show scanStrAux (m + 1) ('\\' :: '\\' :: (escData cs ++ '"' :: r)) = _
          rw [scanStrAux, if_neg (by decide), if_pos rfl, scanEsc,
            if_neg (by decide), if_pos rfl]
          exact step '\\' h2.symm
        · rw [if_neg h2]
          by_cases h3 : c.toNat = 8
          · rw [if_pos h3]
            show scanStrAux (m + 1) ('\\' :: 'b' :: (escData cs ++ '"' :: r)) = _
            rw [scanStrAux, if_neg (by decide), if_pos rfl, scanEsc,
              if_neg (by decide), if_neg (by decide), if_pos rfl]
            exact step (Char.ofNat 8) (by rw [← h3, Char.ofNat_toNat])
          · rw [if_neg h3]
            by_cases h4 : c.toNat = 9
            · rw [if_pos h4]
              show scanStrAux (m + 1) ('\\' :: 't' :: (escData cs ++ '"' :: r)) = _
              rw [scanStrAux, if_neg (by decide), if_pos rfl, scanEsc,
                if_neg (by decide), if_neg (by decide), if_neg (by decide), if_pos rfl]
              exact step (Char.ofNat 9) (by rw [← h4, Char.ofNat_toNat])
            · rw [if_neg h4]
              by_cases h5 : c.toNat = 10
              · rw [if_pos h5]
                show scanStrAux (m + 1) ('\\' :: 'n' :: (escData cs ++ '"' :: r)) = _
                rw [scanStrAux, if_neg (by decide), if_pos rfl, scanEsc,
                  if_neg (by decide), if_neg (by decide), if_neg (by decide),
                  if_neg (by decide), if_pos rfl]
                exact step (Char.ofNat 10) (by rw [← h5, Char.ofNat_toNat])
              · rw [if_neg h5]
                by_cases h6 : c.toNat = 12
                · rw [if_pos h6]
                  show scanStrAux (m + 1) ('\\' :: 'f' :: (escData cs ++ '"' :: r)) = _
                  rw [scanStrAux, if_neg (by decide), if_pos rfl, scanEsc,
                    if_neg (by decide), if_neg (by decide), if_neg (by decide),
                    if_neg (by decide), if_neg (by decide), if_pos rfl]
                  exact step (Char.ofNat 12) (by rw [← h6, Char.ofNat_toNat])
                · rw [if_neg h6]
                  by_cases h7 : c.toNat = 13
                  · rw [if_pos h7]
                    show scanStrAux (m + 1) ('\\' :: 'r' :: (escData cs ++ '"' :: r)) = _
                    rw [scanStrAux, if_neg (by decide), if_pos rfl, scanEsc,
                      if_neg (by decide), if_neg (by decide), if_neg (by decide),
                      if_neg (by decide), if_neg (by decide), if_neg (by decide), if_pos rfl]
                    exact step (Char.ofNat 13) (by rw [← h7, Char.ofNat_toNat])
                  · rw [if_neg h7]
                    by_cases h8 : c.toNat < 32
                    · rw [if_pos h8]
                      show scanStrAux (m + 1) ('\\' :: 'u' :: '0' :: '0' ::
                        hexDig (c.toNat / 16) :: hexDig (c.toNat % 16) ::
                        (escData cs ++ '"' :: r)) = _
                      rw [scanStrAux, if_neg (by decide), if_pos rfl, scanEsc,
                        if_neg (by decide), if_neg (by decide), if_neg (by decide),
                        if_neg (by decide), if_neg (by decide), if_neg (by decide),
                        if_neg (by decide), if_pos rfl, scanHex]
                      refine step (Char.ofNat (hexVal '0' * 4096 + hexVal '0' * 256 +
                        hexVal (hexDig (c.toNat / 16)) * 16 + hexVal (hexDig (c.toNat % 16)))) ?_
                      rw [show hexVal '0' = 0 from by decide]
                      rw [hexVal_hexDig (c.toNat / 16) (by omega)]
                      rw [hexVal_hexDig (c.toNat % 16) (by omega)]
                      rw [show (0 : Nat) * 4096 + 0 * 256 + c.toNat / 16 * 16 + c.toNat % 16
                        = c.toNat from by omega]
                      rw [Char.ofNat_toNat]
                    · rw [if_neg h8]
                      show scanStrAux (m + 1) (c :: (escData cs ++ '"' :: r)) = _
                      rw [scanStrAux, if_neg h1, if_neg h2]
                      exact step c rfl

/-- Cancellation for serialized string segments: equal once-escaped
segments with closing quotes come from equal strings and tails. -/
theorem escSeg_cancel {A B X Y : List Char}
    (h : escData A ++ '"' :: X = escData B ++ '"' :: Y) : A = B ∧ X = Y := by
  have h1 := congrArg (scanStrAux (A.length + B.length + 2)) h
  rw [scanStrAux_esc A _ _ (by omega), scanStrAux_esc B _ _ (by omega)] at h1
  simp only [Option.some.injEq, Prod.mk.injEq] at h1
  exact h1

/-- Decimal digit predicate. -/
def isDigCh (c : Char) : Bool := 48 ≤ c.toNat && c.toNat ≤ 57

/-- Numeric value of a decimal digit character. -/
def digVal (c : Char) : Nat := c.toNat - 48

/-- Value of a decimal digit string. -/
def natVal (l : List Char) : Nat := l.foldl (fun a c => a * 10 + digVal c) 0

theorem digCh_isDig (d : Nat) (hd : d < 10) : isDigCh (digCh d) = true := by
  interval_cases d <;> decide

theorem digVal_digCh (d : Nat) (hd : d < 10) : digVal (digCh d) = d := by
  interval_cases d <;> decide

theorem natChars_all_digits (n : Nat) : ∀ c ∈ natChars n, isDigCh c = true := by
  induction n using Nat.strong_induction_on with
  | _ n ih =>
    rw [natChars]
    split
    · intro c hc
      simp only [List.mem_singleton] at hc
      subst hc
      exact digCh_isDig n (by omega)
    · intro c hc
      rcases List.mem_append.mp hc with h | h
      · exact ih (n / 10) (Nat.div_lt_self (by omega) (by omega)) c h
      · simp only [List.mem_singleton] at h
        subst h
        exact digCh_isDig (n % 10) (by omega)

theorem natVal_natChars (n : Nat) : natVal (natChars n) = n := by
  induction n using Nat.strong_induction_on with
  | _ n ih =>
    rw [natChars]
    split
    · rename_i h
      show (0 : Nat) * 10 + digVal (digCh n) = n
      rw [digVal_digCh n h]
      omega
    · rename_i h
      unfold natVal
      rw [List.foldl_append]
      show natVal (natChars (n / 10)) * 10 + digVal (digCh (n % 10)) = n
      rw [ih (n / 10) (Nat.div_lt_self (by omega) (by omega))]
      rw [digVal_digCh (n % 10) (by omega)]
      omega

theorem takeWhile_all_stop {p : Char → Bool} :
    ∀ (xs : List Char) (y : Char) (r : List Char), (∀ x ∈ xs, p x = true) → p y = false →
    (xs ++ y :: r).takeWhile p = xs := by
  intro xs
  induction xs with
  | nil =>
    intro y r _ hy
    simp [List.takeWhile, hy]
  | cons x xs ih =>
    intro y r hall hy
    have hx : p x = true := hall x (List.mem_cons_self x xs)
    show List.takeWhile p (x :: (xs ++ y :: r)) = x :: xs
    rw [List.takeWhile_cons, hx]
    simp [ih y r (fun a ha => hall a (List.mem_cons_of_mem x ha)) hy]

/-- Cancellation for serialized integer segments delimited by a comma. -/
theorem natSeg_cancel {a b : Nat} {X Y : List Char}
    (h : natChars a ++ ',' :: X = natChars b ++ ',' :: Y) : a = b ∧ X = Y := by
  have ha := takeWhile_all_stop (natChars a) ',' X (natChars_all_digits a) (by decide)
  have hb := takeWhile_all_stop (natChars b) ',' Y (natChars_all_digits b) (by decide)
  have htw := congrArg (List.takeWhile isDigCh) h
  rw [ha, hb] at htw
  have hlen : (natChars a).length = (natChars b).length := by rw [htw]
  obtain ⟨-, htail⟩ := List.append_inj h hlen
  have hv := congrArg natVal htw
  rw [natVal_natChars, natVal_natChars] at hv
  exact ⟨hv, by injection htail⟩

theorem Plan.str_inj {a b : Plan} (h : a.str.data = b.str.data) : a = b := by
  cases a <;> cases b <;> first | rfl | (exact absurd h (by decide))

/-- Distinct payloads canonicalize to distinct strings: the canonical
serialization of a license payload is injective. -/
theorem canonPayload_inj (p q : LicensePayload)
    (h : canonicalize (payloadToObj p) = canonicalize (payloadToObj q)) : p = q := by
  have hd : Char.ofNat 123 ::
      (commaJoin [quoteData "customer_id".data ++ ':' :: quoteData p.customer_id.data,
        quoteData "expires_at".data ++ ':' :: quoteData p.expires_at.data,
        quoteData "issued_at".data ++ ':' :: quoteData p.issued_at.data,
        quoteData "offline_ttl_days".data ++ ':' :: natChars p.offline_ttl_days,
        quoteData "plan".data ++ ':' :: quoteData p.plan.str.data]
      ++ [Char.ofNat 125]) =
      Char.ofNat 123 ::
      (commaJoin [quoteData "customer_id".data ++ ':' :: quoteData q.customer_id.data,
        quoteData "expires_at".data ++ ':' :: quoteData q.expires_at.data,
        quoteData "issued_at".data ++ ':' :: quoteData q.issued_at.data,
        quoteData "offline_ttl_days".data ++ ':' :: natChars q.offline_ttl_days,
        quoteData "plan".data ++ ':' :: quoteData q.plan.str.data]
      ++ [Char.ofNat 125]) := congrArg String.data h
  simp only [commaJoin, quoteData, List.cons_append, List.append_assoc,
    List.singleton_append, List.nil_append, List.cons.injEq, true_and] at hd
  obtain ⟨-, hd⟩ := escSeg_cancel hd
  simp only [List.cons.injEq, true_and] at hd
  obtain ⟨hcid, hd⟩ := escSeg_cancel hd
  simp only [List.cons.injEq, true_and] at hd
  obtain ⟨-, hd⟩ := escSeg_cancel hd
  simp only [List.cons.injEq, true_and] at hd
  obtain ⟨hea, hd⟩ := escSeg_cancel hd
  simp only [List.cons.injEq, true_and] at hd
  obtain ⟨-, hd⟩ := escSeg_cancel hd
  simp only [List.cons.injEq, true_and] at hd
  obtain ⟨hia, hd⟩ := escSeg_cancel hd
  simp only [List.cons.injEq, true_and] at hd
  obtain ⟨-, hd⟩ := escSeg_cancel hd
  simp only [List.cons.injEq, true_and] at hd
  obtain ⟨httl, hd⟩ := natSeg_cancel hd
  simp only [List.cons.injEq, true_and] at hd
  obtain ⟨-, hd⟩ := escSeg_cancel hd
  simp only [List.cons.injEq, true_and] at hd
  obtain ⟨hplan, -⟩ := escSeg_cancel hd
  obtain ⟨p1, p2, p3, p4, p5⟩ := p
  obtain ⟨q1, q2, q3, q4, q5⟩ := q
  rw [show p1 = q1 from Plan.str_inj hplan, show p2 = q2 from String.ext hcid,
    show p3 = q3 from String.ext hia, show p4 = q4 from String.ext hea,
    show p5 = q5 from httl]

/-- C2: verifying the result of signing a payload with the matching
keypair returns true; and verification returns false — never throwing,
the embedding being total and the source body wrapped in
`try/catch { return false }` — for a tampered payload (any distinct
payload presented with the original signature), a wrong keypair (any
public key other than the signer's), a corrupted or truncated signature
(any signature string whose decoded bytes differ from the genuine
signature bytes — a truncated base64 signature decodes to a strict
prefix, an instance), and a blob the JSON parse of the verification
route rejects. -/
theorem verifyLicense_sound_complete {SK : Type} (R : JsRuntime) (S : SigScheme SK)
    (sk : SK) (p : LicensePayload) :
    verifyLicense R S (S.pub sk) (signLicense R S sk p) = true ∧
    (∀ p' : LicensePayload, p' ≠ p →
      verifyLicense R S (S.pub sk)
        { toPayload := p', signature := (signLicense R S sk p).signature } = false) ∧
    (∀ sk' : SK, S.pub sk' ≠ S.pub sk →
      verifyLicense R S (S.pub sk') (signLicense R S sk p) = false) ∧
    (∀ sig : String,
      R.b64decode sig ≠ S.sign sk (R.utf8 (canonicalize (payloadToObj p))) →
      verifyLicense R S (S.pub sk) { toPayload := p, signature := sig } = false) ∧
    (∀ blob : String, R.parseSigned blob = none →
      verifyLicenseEncoded R S (S.pub sk) blob = false) := by
  refine ⟨?_, ?_, ?_, ?_, ?_⟩
  · show S.vrfy (R.b64decode (R.b64encode _)) _ _ = true
    rw [R.b64_roundtrip]
    exact S.vrfy_sign sk _
  · intro p' hne
    by_contra hv
    rw [Bool.not_eq_false] at hv
    have hv' : S.vrfy (S.sign sk (R.utf8 (canonicalize (payloadToObj p))))
        (R.utf8 (canonicalize (payloadToObj p'))) (S.pub sk) = true := by
      have := hv
      unfold verifyLicense signLicense at this
      rwa [R.b64_roundtrip] at this
    obtain ⟨sk₂, -, hs⟩ := S.vrfy_sound _ _ _ hv'
    obtain ⟨-, hm⟩ := S.sign_injective _ _ _ _ hs
    exact hne (canonPayload_inj p' p (R.utf8_inj _ _ hm.symm))
  · intro sk' hne
    by_contra hv
    rw [Bool.not_eq_false] at hv
    have hv' : S.vrfy (S.sign sk (R.utf8 (canonicalize (payloadToObj p))))
        (R.utf8 (canonicalize (payloadToObj p))) (S.pub sk') = true := by
      have := hv
      unfold verifyLicense signLicense at this
      rwa [R.b64_roundtrip] at this
    obtain ⟨sk₂, hpk, hs⟩ := S.vrfy_sound _ _ _ hv'
    obtain ⟨hk, -⟩ := S.sign_injective _ _ _ _ hs
    exact hne (hk ▸ hpk)
  · intro sig hne
    by_contra hv
    rw [Bool.not_eq_false] at hv
    have hv' : S.vrfy (R.b64decode sig)
        (R.utf8 (canonicalize (payloadToObj p))) (S.pub sk) = true := hv
    obtain ⟨sk₂, hpk, hs⟩ := S.vrfy_sound _ _ _ hv'
    rw [← S.pub_inj sk sk₂ hpk] at hs
    exact hne hs
  · intro blob hpb
    unfold verifyLicenseEncoded
    rw [hpb]

/-- A concrete payload for evaluating the abstract signing theorems. -/
def payloadA : LicensePayload :=
  { plan := .PRO, customer_id := "c1", issued_at := "2024-01-01T00:00:00.000Z",
    expires_at := "2025-01-01T00:00:00.000Z", offline_ttl_days := 30 }

/-- The payload `payloadA` with one tampered field. -/
def payloadB : LicensePayload := { payloadA with offline_ttl_days := 31 }

/-- Witness for C2 at concrete inputs: the round trip verifies, and a
tampered field, a wrong key, a corrupted signature and an unparseable
blob are each rejected. -/
theorem verifyLicense_sound_complete_witness :
    verifyLicense jsRuntime₀ sigScheme₀ (sigScheme₀.pub 0)
      (signLicense jsRuntime₀ sigScheme₀ 0 payloadA) = true ∧
    (payloadB ≠ payloadA ∧
      verifyLicense jsRuntime₀ sigScheme₀ (sigScheme₀.pub 0)
        { toPayload := payloadB,
          signature := (signLicense jsRuntime₀ sigScheme₀ 0 payloadA).signature } = false) ∧
    (sigScheme₀.pub 1 ≠ sigScheme₀.pub 0 ∧
      verifyLicense jsRuntime₀ sigScheme₀ (sigScheme₀.pub 1)
        (signLicense jsRuntime₀ sigScheme₀ 0 payloadA) = false) ∧
    (jsRuntime₀.b64decode "x" ≠
        sigScheme₀.sign 0 (jsRuntime₀.utf8 (canonicalize (payloadToObj payloadA))) ∧
      verifyLicense jsRuntime₀ sigScheme₀ (sigScheme₀.pub 0)
        { toPayload := payloadA, signature := "x" } = false) ∧
    (jsRuntime₀.parseSigned "zzz" = none ∧
      verifyLicenseEncoded jsRuntime₀ sigScheme₀ (sigScheme₀.pub 0) "zzz" = false) := by
  obtain ⟨h1, h2, h3, h4, h5⟩ :=
    verifyLicense_sound_complete jsRuntime₀ sigScheme₀ 0 payloadA
  exact ⟨h1, ⟨by decide, h2 payloadB (by decide)⟩, ⟨by decide, h3 1 (by decide)⟩,
    ⟨by decide, h4 "x" (by decide)⟩, ⟨rfl, h5 "zzz" rfl⟩⟩

/-- C7: `isWithinOfflineTTL(credential, lastVerified)` is true exactly when
`now < lastVerified + offline_ttl_days` converted to milliseconds; in
particular it is true one millisecond before `lastVerified + ttl` and
false one millisecond after. -/
theorem isWithinOfflineTTL_iff_and_boundaries
    (license : SignedLicense) (lastVerified now : Int) :
    (isWithinOfflineTTL license lastVerified now = true ↔
      now < lastVerified + (license.toPayload.offline_ttl_days : Int) * msPerDay) ∧
    isWithinOfflineTTL license lastVerified
      (lastVerified + (license.toPayload.offline_ttl_days : Int) * msPerDay - 1) = true ∧
    isWithinOfflineTTL license lastVerified
      (lastVerified + (license.toPayload.offline_ttl_days : Int) * msPerDay + 1) = false := by
  refine ⟨?_, ?_, ?_⟩
  · simp [isWithinOfflineTTL]
  · simp [isWithinOfflineTTL]
  · simp [isWithinOfflineTTL]

/-! ## Customer & license store (src/lib/db.ts)

The sql.js tables are embedded as lists of rows in insertion order.
`created_at TEXT DEFAULT (datetime('now'))` is modelled as a monotone
insertion counter; `Date` values handed to the store already serialized
(`toISOString()`) are carried as the strings the caller built.  The
`licenses` table has columns id, customer_id, plan, issued_at,
expires_at, revoked_at, created_at — and no payment-provider or
transaction-id column. -/

/-- A row of the `customers` table. -/
structure Customer where
  id : String
  email : String
  stripe_customer_id : Option String
deriving DecidableEq, Repr

/-- A row of the `licenses` table. -/
structure LicenseRow where
  id : String
  customer_id : String
  plan : String
  issued_at : String
  expires_at : String
  revoked_at : Option String
  created_at : Nat
deriving DecidableEq, Repr

/-- The customer and license store. -/
structure DbState where
  customers : List Customer
  licenses : List LicenseRow
deriving DecidableEq, Repr

/-- Embeds `findCustomerByEmail`: `SELECT * FROM customers WHERE email = ?`
stepped once, the first matching row in table order. -/
def findCustomerByEmail (db : DbState) (email : String) : Option Customer :=
  db.customers.find? fun c => c.email == email

/-- Embeds `createCustomer(id, email, stripeCustomerId?)`: a plain
`INSERT`.  The function takes three data parameters; it has no
parameter for a paddle customer id. -/
def createCustomer (db : DbState) (id email : String)
    (stripeCustomerId : Option String) : DbState :=
  { db with customers :=
      db.customers ++ [{ id := id, email := email, stripe_customer_id := stripeCustomerId }] }

/-- Embeds `createLicense(id, customerId, plan, issuedAt, expiresAt)`:
`INSERT INTO licenses (id, customer_id, plan, issued_at, expires_at)`.
The function takes exactly these five data parameters; the insert sets
no provider or transaction column (the table has none), and `revoked_at`
starts NULL. -/
def createLicense (db : DbState) (id customerId plan issuedAt expiresAt : String) : DbState :=
  { db with licenses := db.licenses ++
      [{ id := id, customer_id := customerId, plan := plan, issued_at := issuedAt,
         expires_at := expiresAt, revoked_at := none, created_at := db.licenses.length }] }

/-- Embeds `findLicenseByCustomer`: `SELECT * FROM licenses WHERE
customer_id = ? AND revoked_at IS NULL ORDER BY created_at DESC LIMIT 1`
— the matching non-revoked row with the greatest `created_at`. -/
def findLicenseByCustomer (db : DbState) (customerId : String) : Option LicenseRow :=
  (db.licenses.filter fun l => l.customer_id == customerId && l.revoked_at.isNone).foldl
    (fun acc l =>
      match acc with
      | none => some l
      | some m => if m.created_at ≤ l.created_at then some l else some m) none

/-! ## Revocation registry, store level (src/lib/revocation.ts)

Every registry operation in the source loads the persisted JSON file,
transforms the parsed store, and (when it changed) writes it back.  At
this level the JSON round trip through the file is the identity
(`JSON.parse ∘ JSON.stringify` on this plain record shape), so the
operations are embedded as transformations of the parsed
`RevocationStore`.  The file-level behaviors — what a write emits, and
what a missing or corrupt file reads as — are embedded separately
below. -/

/-- Embeds `interface RevocationEntry`.  The field named `license_id`
carries the revocation subject; the gateway passes the customer id. -/
structure RevocationEntry where
  license_id : String
  revoked_at : String
  reason : String
deriving DecidableEq, Repr

/-- Embeds `interface RevocationStore`. -/
structure RevocationStore where
  entries : List RevocationEntry
  last_updated : String
deriving DecidableEq, Repr

/-- Embeds `isRevoked`: whether some entry has this subject. -/
def isRevoked (store : RevocationStore) (licenseId : String) : Bool :=
  store.entries.any fun e => e.license_id == licenseId

/-- Embeds `getRevocationInfo`: the first entry with this subject. -/
def getRevocationInfo (store : RevocationStore) (licenseId : String) : Option RevocationEntry :=
  store.entries.find? fun e => e.license_id == licenseId

/-- Embeds `addRevocation`: return unchanged (no write) when an entry
for the subject exists, else push an entry stamped with the current
time and save (which also stamps `last_updated`). -/
def addRevocation (store : RevocationStore) (licenseId reason nowIso : String) :
    RevocationStore :=
  if store.entries.any fun e => e.license_id == licenseId then store
  else
    { entries := store.entries ++
        [{ license_id := licenseId, revoked_at := nowIso, reason := reason }],
      last_updated := nowIso }

/-- Number of registry entries naming a subject. -/
def countSubject (store : RevocationStore) (licenseId : String) : Nat :=
  (store.entries.filter fun e => e.license_id == licenseId).length

/-! ## Payment gateway (src/lib/payment-gateway.ts) -/

/-- Embeds the normalized `PaymentEvent`.  `eventType` and `provider`
are carried as the runtime strings a webhook route produces (the TS
union types erase to strings); `expiresAt` is an optional `Date` in
epoch milliseconds.  The `metadata` map is never read by the gateway
and is omitted. -/
structure PaymentEvent where
  provider : String
  eventType : String
  email : String
  plan : Plan
  externalCustomerId : String
  externalTransactionId : String
  expiresAt : Option Int
deriving DecidableEq, Repr

/-- Embeds `PaymentResult`. -/
structure PaymentResult where
  success : Bool
  customerId : Option String := none
  licenseId : Option String := none
  error : Option String := none
deriving DecidableEq, Repr

/-- The mutable state the gateway touches: whether `initDb` ran, the
store, and the revocation registry.  `nextId` feeds the `uuid()`
generator. -/
structure GState where
  dbInit : Bool
  db : DbState
  rev : RevocationStore
  nextId : Nat
deriving DecidableEq, Repr

/-- External primitives of the gateway: the `uuid()` generator (a fresh
string per draw, modelled as a function of a drawn counter) and
`Date.prototype.toISOString` on epoch milliseconds. -/
structure GwEnv where
  uuid : Nat → String
  iso : Int → String

/-- Embeds `getDb()`: throws when `initDb` has not run. -/
def getDbE (st : GState) : Except String DbState :=
  if st.dbInit then .ok st.db
  else .error "Error: Database not initialized. Call initDb() first."

/-- Embeds `handleCheckoutCompleted`: find-or-create the customer
(storing the external id as the stripe customer id only for stripe — the
paddle id computed at the call site is dropped by `createCustomer`,
which has no parameter for it), compute expiry (the event's `expiresAt`
or now + 365 days), build the payload with `offline_ttl_days = 30`,
sign it (`signLicense` is pure and its result is discarded here), and
persist the license row.  The call site passes `event.provider` and
`event.externalTransactionId` as sixth and seventh arguments, but
`createLicense` takes five parameters and the row stores neither. -/
def handleCheckoutCompleted (env : GwEnv) (now : Int) (ev : PaymentEvent) (st : GState) :
    Except String (PaymentResult × GState) :=
  match getDbE st with
  | .error e => .error e
  | .ok db =>
  let (customerId, db2, nid) :=
    match findCustomerByEmail db ev.email with
    | some c => (c.id, db, st.nextId)
    | none =>
      let cid := env.uuid st.nextId
      let stripeId := if ev.provider = "stripe" then some ev.externalCustomerId else none
      (cid, createCustomer db cid ev.email stripeId, st.nextId + 1)
  let expiresAt : Int :=
    match ev.expiresAt with
    | some t => t
    | none => now + 365 * msPerDay
  let licenseId := env.uuid nid
  let db3 := createLicense db2 licenseId customerId ev.plan.str (env.iso now) (env.iso expiresAt)
  .ok ({ success := true, customerId := some customerId, licenseId := some licenseId },
       { st with db := db3, nextId := nid + 1 })

/-- Embeds `handleSubscriptionUpdated`: missing customer fails with
"Customer not found"; an active license with the requested plan returns
success with no license id and no mutation; otherwise a new license is
minted exactly as in checkout. -/
def handleSubscriptionUpdated (env : GwEnv) (now : Int) (ev : PaymentEvent) (st : GState) :
    Except String (PaymentResult × GState) :=
  match getDbE st with
  | .error e => .error e
  | .ok db =>
  match findCustomerByEmail db ev.email with
  | none => .ok ({ success := false, error := some "Customer not found" }, st)
  | some customer =>
    match findLicenseByCustomer db customer.id with
    | some existingLicense =>
      if existingLicense.plan == ev.plan.str then
        .ok ({ success := true, customerId := some customer.id }, st)
      else
        let expiresAt : Int :=
          match ev.expiresAt with
          | some t => t
          | none => now + 365 * msPerDay
        let licenseId := env.uuid st.nextId
        let db3 := createLicense db licenseId customer.id ev.plan.str
          (env.iso now) (env.iso expiresAt)
        .ok ({ success := true, customerId := some customer.id, licenseId := some licenseId },
             { st with db := db3, nextId := st.nextId + 1 })
    | none =>
      let expiresAt : Int :=
        match ev.expiresAt with
        | some t => t
        | none => now + 365 * msPerDay
      let licenseId := env.uuid st.nextId
      let db3 := createLicense db licenseId customer.id ev.plan.str
        (env.iso now) (env.iso expiresAt)
      .ok ({ success := true, customerId := some customer.id, licenseId := some licenseId },
           { st with db := db3, nextId := st.nextId + 1 })

/-- One row's view of `UPDATE licenses SET revoked_at = ? WHERE
customer_id = ? AND revoked_at IS NULL`. -/
def stampRow (customerId nowIso : String) (l : LicenseRow) : LicenseRow :=
  if l.customer_id == customerId && l.revoked_at.isNone
  then { l with revoked_at := some nowIso } else l

/-- Embeds `handleSubscriptionCancelled`: missing customer fails with
"Customer not found"; otherwise add one revocation entry for the
customer id (the reason naming the provider) and stamp `revoked_at` on
every currently non-revoked license row of the customer
(`UPDATE licenses SET revoked_at = ? WHERE customer_id = ? AND
revoked_at IS NULL`). -/
def handleSubscriptionCancelled (env : GwEnv) (now : Int) (ev : PaymentEvent) (st : GState) :
    Except String (PaymentResult × GState) :=
  match getDbE st with
  | .error e => .error e
  | .ok db =>
  match findCustomerByEmail db ev.email with
  | none => .ok ({ success := false, error := some "Customer not found" }, st)
  | some customer =>
    let rev2 := addRevocation st.rev customer.id
      ("Subscription cancelled via " ++ ev.provider) (env.iso now)
    let db2 := { db with licenses := db.licenses.map (stampRow customer.id (env.iso now)) }
    .ok ({ success := true, customerId := some customer.id },
         { st with db := db2, rev := rev2 })

/-- Embeds `handlePaymentFailed`: log only, touch nothing, succeed. -/
def handlePaymentFailed (_ev : PaymentEvent) (st : GState) : PaymentResult × GState :=
  ({ success := true }, st)

/-- The `switch (event.eventType)` dispatch inside the `try` block of
`processPaymentEvent`, the unknown type falling to the default case. -/
def dispatchPaymentEvent (env : GwEnv) (now : Int) (ev : PaymentEvent) (st : GState) :
    Except String (PaymentResult × GState) :=
  if ev.eventType = "checkout_completed" then handleCheckoutCompleted env now ev st
  else if ev.eventType = "subscription_updated" then handleSubscriptionUpdated env now ev st
  else if ev.eventType = "subscription_cancelled" then handleSubscriptionCancelled env now ev st
  else if ev.eventType = "payment_failed" then .ok (handlePaymentFailed ev st)
  else .ok ({ success := false, error := some ("Unknown event type: " ++ ev.eventType) }, st)

/-- Embeds `processPaymentEvent`: the dispatch wrapped in `try/catch`,
any thrown error converted to `{success: false, error: String(err)}`. -/
def processPaymentEvent (env : GwEnv) (now : Int) (ev : PaymentEvent) (st : GState) :
    PaymentResult × GState :=
  match dispatchPaymentEvent env now ev st with
  | .ok x => x
  | .error e => ({ success := false, error := some e }, st)

/-! ## Gateway theorems -/

/-- C5: `processPaymentEvent` always returns a result and never
propagates an exception: the embedding is a total function; an event
type outside the four known ones yields the descriptive
"Unknown event type" failure result; and an error thrown anywhere in
the dispatch is caught and converted to `{success: false, error: e}`
with the state of entry. -/
theorem processPaymentEvent_total (env : GwEnv) (now : Int) (ev : PaymentEvent) (st : GState) :
    (ev.eventType ≠ "checkout_completed" → ev.eventType ≠ "subscription_updated" →
     ev.eventType ≠ "subscription_cancelled" → ev.eventType ≠ "payment_failed" →
     processPaymentEvent env now ev st =
       ({ success := false, error := some ("Unknown event type: " ++ ev.eventType) }, st)) ∧
    (∀ e : String, dispatchPaymentEvent env now ev st = .error e →
      processPaymentEvent env now ev st = ({ success := false, error := some e }, st)) := by
  constructor
  · intro h1 h2 h3 h4
    unfold processPaymentEvent dispatchPaymentEvent
    rw [if_neg h1, if_neg h2, if_neg h3, if_neg h4]
  · intro e he
    unfold processPaymentEvent
    rw [he]

/-- An environment instance for evaluating gateway theorems on closed
inputs. -/
def gwEnv₀ : GwEnv where
  uuid := fun n => "uuid-" ++ toString n
  iso := fun t => "iso-" ++ toString t

/-- An unknown-typed event for the C5 witness. -/
def eventUnknown : PaymentEvent :=
  { provider := "stripe", eventType := "invoice_voided", email := "a@x.com", plan := .PRO,
    externalCustomerId := "cus_1", externalTransactionId := "tx_1", expiresAt := none }

/-- A checkout event for closed evaluation. -/
def eventCheckout : PaymentEvent :=
  { provider := "stripe", eventType := "checkout_completed", email := "a@x.com", plan := .PRO,
    externalCustomerId := "cus_1", externalTransactionId := "cs_123", expiresAt := none }

/-- The empty, initialized state. -/
def stEmpty : GState :=
  { dbInit := true, db := { customers := [], licenses := [] },
    rev := { entries := [], last_updated := "iso-0" }, nextId := 0 }

/-- The empty state before `initDb` ran. -/
def stUninit : GState := { stEmpty with dbInit := false }

/-- Witness for C5: a concrete unknown event type yields the
descriptive failure, and the concrete throw of `getDb()` on an
uninitialized store is caught and returned as a failure result. -/
theorem processPaymentEvent_total_witness :
    processPaymentEvent gwEnv₀ 0 eventUnknown stEmpty =
      ({ success := false, error := some "Unknown event type: invoice_voided" }, stEmpty) ∧
    processPaymentEvent gwEnv₀ 0 eventCheckout stUninit =
      ({ success := false,
         error := some "Error: Database not initialized. Call initDb() first." }, stUninit) := by
  obtain ⟨h1, -⟩ := processPaymentEvent_total gwEnv₀ 0 eventUnknown stEmpty
  obtain ⟨-, h2⟩ := processPaymentEvent_total gwEnv₀ 0 eventCheckout stUninit
  constructor
  · have := h1 (by decide) (by decide) (by decide) (by decide)
    rw [this]
    rfl
  · exact h2 _ rfl

/-- C6: `subscription_updated` with the requested plan equal to the
active license's plan returns success carrying the customer id, no new
license id, and performs no store mutation at all: the state is
returned unchanged. -/
theorem subscriptionUpdated_same_plan_no_mutation (env : GwEnv) (now : Int)
    (ev : PaymentEvent) (st : GState) (cust : Customer) (lic : LicenseRow)
    (het : ev.eventType = "subscription_updated")
    (hinit : st.dbInit = true)
    (hcust : findCustomerByEmail st.db ev.email = some cust)
    (hlic : findLicenseByCustomer st.db cust.id = some lic)
    (hplan : lic.plan = ev.plan.str) :
    processPaymentEvent env now ev st =
      ({ success := true, customerId := some cust.id }, st) := by
  unfold processPaymentEvent dispatchPaymentEvent
  rw [het]
  rw [if_neg (by decide), if_pos rfl]
  unfold handleSubscriptionUpdated getDbE
  simp only [hinit, if_true, hcust, hlic, hplan, beq_self_eq_true, if_pos]

/-- A one-customer, one-active-license state for closed evaluation. -/
def stOneCustomer : GState :=
  { dbInit := true,
    db := { customers := [{ id := "C", email := "a@x.com", stripe_customer_id := some "cus_1" }],
            licenses := [{ id := "L1", customer_id := "C", plan := "PRO",
                           issued_at := "iso-0", expires_at := "iso-1",
                           revoked_at := none, created_at := 0 }] },
    rev := { entries := [], last_updated := "iso-0" }, nextId := 7 }

/-- A subscription_updated event requesting the already-active plan. -/
def eventUpdateSame : PaymentEvent :=
  { provider := "stripe", eventType := "subscription_updated", email := "a@x.com", plan := .PRO,
    externalCustomerId := "cus_1", externalTransactionId := "sub_1", expiresAt := none }

/-- Witness for C6 at a concrete state: same-plan update succeeds with
the customer id, mints nothing, and the state is bit-for-bit
unchanged. -/
theorem subscriptionUpdated_same_plan_no_mutation_witness :
    processPaymentEvent gwEnv₀ 5 eventUpdateSame stOneCustomer =
      ({ success := true, customerId := some "C" }, stOneCustomer) :=
  subscriptionUpdated_same_plan_no_mutation gwEnv₀ 5 eventUpdateSame stOneCustomer
    { id := "C", email := "a@x.com", stripe_customer_id := some "cus_1" }
    { id := "L1", customer_id := "C", plan := "PRO", issued_at := "iso-0",
      expires_at := "iso-1", revoked_at := none, created_at := 0 }
    rfl rfl (by decide) (by decide) rfl

/-- C8: `payment_failed` returns success and mutates nothing — the
state is returned unchanged, so a previously non-revoked customer stays
non-revoked and their active license row is untouched. -/
theorem paymentFailed_no_mutation (env : GwEnv) (now : Int)
    (ev : PaymentEvent) (st : GState) (cid : String) (lic : LicenseRow)
    (het : ev.eventType = "payment_failed")
    (hlic : findLicenseByCustomer st.db cid = some lic)
    (hrev : isRevoked st.rev cid = false) :
    processPaymentEvent env now ev st = ({ success := true }, st) ∧
    isRevoked (processPaymentEvent env now ev st).2.rev cid = false ∧
    findLicenseByCustomer (processPaymentEvent env now ev st).2.db cid = some lic := by
  have hmain : processPaymentEvent env now ev st = ({ success := true }, st) := by
    unfold processPaymentEvent dispatchPaymentEvent
    rw [het]
    rw [if_neg (by decide), if_neg (by decide), if_neg (by decide), if_pos rfl]
    rfl
  exact ⟨hmain, by rw [hmain]; exact hrev, by rw [hmain]; exact hlic⟩

/-- A payment_failed event for closed evaluation. -/
def eventFailed : PaymentEvent :=
  { provider := "stripe", eventType := "payment_failed", email := "a@x.com", plan := .PRO,
    externalCustomerId := "cus_1", externalTransactionId := "in_1", expiresAt := none }

/-- Witness for C8 at a concrete state with an active license. -/
theorem paymentFailed_no_mutation_witness :
    processPaymentEvent gwEnv₀ 5 eventFailed stOneCustomer = ({ success := true }, stOneCustomer) ∧
    isRevoked (processPaymentEvent gwEnv₀ 5 eventFailed stOneCustomer).2.rev "C" = false ∧
    findLicenseByCustomer (processPaymentEvent gwEnv₀ 5 eventFailed stOneCustomer).2.db "C" =
      some { id := "L1", customer_id := "C", plan := "PRO", issued_at := "iso-0",
             expires_at := "iso-1", revoked_at := none, created_at := 0 } :=
  paymentFailed_no_mutation gwEnv₀ 5 eventFailed stOneCustomer "C"
    { id := "L1", customer_id := "C", plan := "PRO", issued_at := "iso-0",
      expires_at := "iso-1", revoked_at := none, created_at := 0 }
    rfl (by decide) (by decide)

/-- Adding a revocation makes the subject revoked. -/
theorem isRevoked_addRevocation (store : RevocationStore) (subj reason t : String) :
    isRevoked (addRevocation store subj reason t) subj = true := by
  unfold isRevoked addRevocation
  by_cases h : store.entries.any fun e => e.license_id == subj
  · rw [if_pos h]; exact h
  · rw [if_neg h]
    simp

/-- A subject no entry names is filtered to nothing. -/
theorem filter_subject_nil {l : List RevocationEntry} {s : String}
    (h : (l.any fun e => e.license_id == s) = false) :
    (l.filter fun e => e.license_id == s) = [] := by
  induction l with
  | nil => rfl
  | cons e rest ih =>
    simp only [List.any_cons, Bool.or_eq_false_iff] at h
    simp [List.filter_cons, h.1, ih h.2]

/-- With unique subjects, a named subject has exactly one entry. -/
theorem count_one_of_nodup {l : List RevocationEntry} {s : String}
    (hnd : (l.map RevocationEntry.license_id).Nodup)
    (hany : (l.any fun e => e.license_id == s) = true) :
    (l.filter fun e => e.license_id == s).length = 1 := by
  induction l with
  | nil => simp at hany
  | cons e rest ih =>
    simp only [List.map_cons, List.nodup_cons] at hnd
    by_cases he : (e.license_id == s) = true
    · have hes : e.license_id = s := by simpa using he
      have hrest : (rest.any fun x => x.license_id == s) = false := by
        cases hr : rest.any fun x => x.license_id == s
        · rfl
        · obtain ⟨x, hx, hxs⟩ := List.any_eq_true.mp hr
          have hmem : e.license_id ∈ rest.map RevocationEntry.license_id := by
            rw [hes]
            exact List.mem_map.mpr ⟨x, hx, by simpa using hxs⟩
          exact absurd hmem hnd.1
      simp [List.filter_cons, he, filter_subject_nil hrest]
    · simp only [List.any_cons, he, Bool.false_or] at hany
      simp [List.filter_cons, he, ih hnd.2 hany]

/-- After `addRevocation`, a registry with unique subjects holds exactly
one entry for the subject. -/
theorem countSubject_addRevocation {store : RevocationStore} {subj : String}
    (reason t : String)
    (hnd : (store.entries.map RevocationEntry.license_id).Nodup) :
    countSubject (addRevocation store subj reason t) subj = 1 := by
  unfold countSubject addRevocation
  by_cases h : store.entries.any fun e => e.license_id == subj
  · rw [if_pos h]
    exact count_one_of_nodup hnd h
  · rw [if_neg h]
    rw [Bool.not_eq_true] at h
    simp [List.filter_append, filter_subject_nil h, List.filter_cons]

/-- `addRevocation` preserves uniqueness of subjects. -/
theorem nodup_addRevocation {store : RevocationStore} {subj : String} (reason t : String)
    (hnd : (store.entries.map RevocationEntry.license_id).Nodup) :
    ((addRevocation store subj reason t).entries.map RevocationEntry.license_id).Nodup := by
  unfold addRevocation
  by_cases h : store.entries.any fun e => e.license_id == subj
  · rw [if_pos h]; exact hnd
  · rw [if_neg h]
    rw [Bool.not_eq_true] at h
    simp only [List.map_append, List.map_cons, List.map_nil]
    rw [List.nodup_append]
    refine ⟨hnd, by simp, ?_⟩
    intro a ha hb
    simp only [List.mem_singleton] at hb
    obtain ⟨x, hx, hxs⟩ := List.mem_map.mp ha
    have hc : (store.entries.any fun e => e.license_id == subj) = true :=
      List.any_eq_true.mpr ⟨x, hx, by simp [hxs, hb]⟩
    rw [hc] at h
    cases h

/-- Re-adding an already revoked subject leaves the registry
untouched. -/
theorem addRevocation_already (store : RevocationStore) (subj reason t : String)
    (h : isRevoked store subj = true) :
    addRevocation store subj reason t = store := by
  unfold isRevoked at h
  unfold addRevocation
  rw [if_pos h]

/-- Stamping a row twice equals stamping it once. -/
theorem stampRow_idem (cid t : String) (x : LicenseRow) :
    stampRow cid t (stampRow cid t x) = stampRow cid t x := by
  unfold stampRow
  by_cases h : (x.customer_id == cid && x.revoked_at.isNone) = true
  · rw [if_pos h]
    rw [if_neg (by simp)]
  · rw [if_neg h, if_neg h]

/-- Stamping a whole table twice equals stamping it once. -/
theorem map_stampRow_idem (cid t : String) (L : List LicenseRow) :
    (L.map (stampRow cid t)).map (stampRow cid t) = L.map (stampRow cid t) := by
  induction L with
  | nil => rfl
  | cons x L ih =>
    simp only [List.map_cons, stampRow_idem, ih]

/-- C4: `subscription_cancelled` of an existing customer succeeds with
the customer id; afterwards the customer is revoked, the registry
(kept duplicate-free) holds exactly one entry for that subject, every
license row of the customer carries a `revoked_at` stamp, and
reprocessing the same event replays to the identical result and state:
the registry gains no duplicate entry. -/
theorem subscriptionCancelled_revokes (env : GwEnv) (now : Int)
    (ev : PaymentEvent) (st : GState) (cust : Customer)
    (het : ev.eventType = "subscription_cancelled")
    (hinit : st.dbInit = true)
    (hcust : findCustomerByEmail st.db ev.email = some cust)
    (hnd : (st.rev.entries.map RevocationEntry.license_id).Nodup) :
    (processPaymentEvent env now ev st).1 =
      { success := true, customerId := some cust.id } ∧
    isRevoked (processPaymentEvent env now ev st).2.rev cust.id = true ∧
    countSubject (processPaymentEvent env now ev st).2.rev cust.id = 1 ∧
    ((processPaymentEvent env now ev st).2.rev.entries.map RevocationEntry.license_id).Nodup ∧
    (∀ l ∈ (processPaymentEvent env now ev st).2.db.licenses,
      l.customer_id = cust.id → l.revoked_at ≠ none) ∧
    processPaymentEvent env now ev (processPaymentEvent env now ev st).2 =
      processPaymentEvent env now ev st := by
  have hrun : processPaymentEvent env now ev st =
      ({ success := true, customerId := some cust.id },
       { st with
          db := { st.db with
            licenses := st.db.licenses.map (stampRow cust.id (env.iso now)) },
          rev := addRevocation st.rev cust.id
            ("Subscription cancelled via " ++ ev.provider) (env.iso now) }) := by
    unfold processPaymentEvent dispatchPaymentEvent
    rw [het]
    rw [if_neg (by decide), if_neg (by decide), if_pos rfl]
    unfold handleSubscriptionCancelled getDbE
    simp only [hinit, if_true, hcust]
  have hrev2 := addRevocation_already _ cust.id
    ("Subscription cancelled via " ++ ev.provider) (env.iso now)
    (isRevoked_addRevocation st.rev cust.id
      ("Subscription cancelled via " ++ ev.provider) (env.iso now))
  rw [hrun]
  refine ⟨rfl, isRevoked_addRevocation _ _ _ _,
    countSubject_addRevocation _ _ hnd, nodup_addRevocation _ _ hnd, ?_, ?_⟩
  · intro l hl
    obtain ⟨orig, horig, rfl⟩ := List.mem_map.mp hl
    unfold stampRow
    by_cases hc : (orig.customer_id == cust.id && orig.revoked_at.isNone) = true
    · rw [if_pos hc]
      intro _
      simp
    · rw [if_neg hc]
      intro hcid hnone
      exact hc (by simp [hcid, hnone])
  · unfold processPaymentEvent dispatchPaymentEvent
    rw [het]
    rw [if_neg (by decide), if_neg (by decide), if_pos rfl]
    unfold handleSubscriptionCancelled getDbE
    simp only [hinit, if_true]
    simp only [show findCustomerByEmail
        { st.db with licenses := st.db.licenses.map (stampRow cust.id (env.iso now)) } ev.email
        = some cust from hcust]
    rw [hrev2, map_stampRow_idem]

/-- A subscription_cancelled event for closed evaluation. -/
def eventCancel : PaymentEvent :=
  { provider := "stripe", eventType := "subscription_cancelled", email := "a@x.com",
    plan := .FREE, externalCustomerId := "cus_1", externalTransactionId := "sub_c",
    expiresAt := none }

/-- Witness for C4 at a concrete state: cancelling revokes the
customer, with exactly one registry entry. -/
theorem subscriptionCancelled_revokes_witness :
    (processPaymentEvent gwEnv₀ 9 eventCancel stOneCustomer).1 =
      { success := true, customerId := some "C" } ∧
    isRevoked (processPaymentEvent gwEnv₀ 9 eventCancel stOneCustomer).2.rev "C" = true ∧
    countSubject (processPaymentEvent gwEnv₀ 9 eventCancel stOneCustomer).2.rev "C" = 1 := by
  obtain ⟨h1, h2, h3, -, -, -⟩ := subscriptionCancelled_revokes gwEnv₀ 9 eventCancel
    stOneCustomer { id := "C", email := "a@x.com", stripe_customer_id := some "cus_1" }
    rfl rfl (by decide) (by decide)
  exact ⟨h1, h2, h3⟩

/-- C1, divergence: the persisted license row never records the payment
provider or the external transaction id.  The gateway's `createLicense`
call passes them as sixth and seventh arguments, but `createLicense`
takes five parameters and the `licenses` table has no such columns (the
repo's own test asserting `license.payment_provider` contradicts this).
Formally: the entire outcome of `processPaymentEvent` is independent of
the event's `externalTransactionId`; concretely, a checkout processed
with two different transaction ids yields bit-for-bit identical results
and states, the persisted row carrying neither field, and for an
existing customer the outcome is also independent of the provider. -/
theorem checkout_drops_provider_and_transaction :
    (∀ (env : GwEnv) (now : Int) (ev : PaymentEvent) (st : GState) (x : String),
      processPaymentEvent env now { ev with externalTransactionId := x } st =
        processPaymentEvent env now ev st) ∧
    processPaymentEvent gwEnv₀ 0 eventCheckout stEmpty =
      processPaymentEvent gwEnv₀ 0
        { eventCheckout with externalTransactionId := "cs_999" } stEmpty ∧
    (processPaymentEvent gwEnv₀ 0 eventCheckout stEmpty).2.db.licenses =
      [{ id := "uuid-1", customer_id := "uuid-0", plan := "PRO",
         issued_at := "iso-0", expires_at := "iso-31536000000",
         revoked_at := none, created_at := 0 }] ∧
    processPaymentEvent gwEnv₀ 0 eventCheckout stOneCustomer =
      processPaymentEvent gwEnv₀ 0 { eventCheckout with provider := "paddle" } stOneCustomer := by
  refine ⟨?_, by decide, by decide, by decide⟩
  intro env now ev st x
  cases ev
  rfl

/-! ## Revocation registry, file level (src/lib/revocation.ts)

The registry persists as one JSON file.  `JSON.parse` of its contents is
an external primitive, embedded as a parameter
`parseStore : String → Option RevocationStore` whose `none` models a
thrown parse error; no properties of it are assumed.  For writes, the
file-system calls the source makes are embedded as an operation trace,
so that the write pattern itself (direct write vs. write-to-temp then
rename) is observable. -/

/-- One file-system call made by the registry. -/
inductive FsOp where
  | mkdirRec (path : String) : FsOp
  | writeFile (path contents : String) : FsOp
  | rename (src dst : String) : FsOp
deriving DecidableEq, Repr

/-- The data directory, `process.env.DATA_DIR || "./data"` under the
default environment. -/
def DATA_DIR : String := "./data"

/-- Embeds `path.join(DATA_DIR, "revoked_keys.json")` (Node's join
normalizes the leading `./` away). -/
def REVOKED_FILE : String := "data/revoked_keys.json"

/-- Embeds `ensureDataDir`: create the data directory unless it
exists. -/
def ensureDataDir (dirs : List String) : List FsOp :=
  if DATA_DIR ∈ dirs then [] else [.mkdirRec DATA_DIR]

/-- Embeds `saveRevocationStore`: ensure the data directory, stamp
`last_updated`, then one direct `fs.writeFileSync(REVOKED_FILE, ...)` of
the whole serialized store. -/
def saveRevocationStore (stringifyStore : RevocationStore → String)
    (dirs : List String) (store : RevocationStore) (nowIso : String) : List FsOp :=
  ensureDataDir dirs ++
    [.writeFile REVOKED_FILE (stringifyStore { store with last_updated := nowIso })]

/-- Modelled from the spec: "each write should atomically replace the
persisted state (write-to-temp then rename, or equivalent) to avoid
truncated/corrupt state on crash mid-write" — the trace publishes the
new contents to the target only through a rename onto it and never
writes the target path directly. -/
def atomicReplace (ops : List FsOp) (target : String) : Bool :=
  (ops.any fun op =>
    match op with
    | .rename _ dst => dst == target
    | _ => false) &&
  (ops.all fun op =>
    match op with
    | .writeFile p _ => p != target
    | _ => true)

/-- Counterexample to C9 at a concrete store: the emitted trace is a
single direct whole-file write to the registry path, with no rename —
not an atomic replace. -/
theorem saveRevocationStore_not_atomic_cex :
    saveRevocationStore (fun _ => "json") [DATA_DIR]
      { entries := [], last_updated := "t0" } "t1" =
      [.writeFile REVOKED_FILE "json"] ∧
    atomicReplace (saveRevocationStore (fun _ => "json") [DATA_DIR]
      { entries := [], last_updated := "t0" } "t1") REVOKED_FILE = false := by
  constructor
  · rfl
  · rfl

/-- C9 (amended): every write of the revocation registry emits, besides
an optional mkdir of the data directory, exactly one direct
`writeFileSync` of the whole serialized store to the registry file, and
no rename at all — so no write is an atomic temp-then-rename
replacement. -/
theorem saveRevocationStore_direct_whole_file
    (stringifyStore : RevocationStore → String) (dirs : List String)
    (store : RevocationStore) (nowIso : String) :
    ((saveRevocationStore stringifyStore dirs store nowIso).filter fun op =>
      match op with
      | .writeFile _ _ => true
      | _ => false) =
      [.writeFile REVOKED_FILE (stringifyStore { store with last_updated := nowIso })] ∧
    ((saveRevocationStore stringifyStore dirs store nowIso).all fun op =>
      match op with
      | .rename _ _ => false
      | _ => true) = true ∧
    atomicReplace (saveRevocationStore stringifyStore dirs store nowIso) REVOKED_FILE
      = false := by
  unfold saveRevocationStore ensureDataDir atomicReplace
  by_cases h : DATA_DIR ∈ dirs
  · rw [if_pos h]
    exact ⟨rfl, rfl, rfl⟩
  · rw [if_neg h]
    exact ⟨rfl, rfl, rfl⟩

/-- Embeds `loadRevocationStore`: a missing file reads as the empty
store; contents whose parse throws read as the empty store via the
`catch`. -/
def loadRevocationStore (parseStore : String → Option RevocationStore)
    (file : Option String) (nowIso : String) : RevocationStore :=
  match file with
  | none => { entries := [], last_updated := nowIso }
  | some raw =>
    match parseStore raw with
    | some store => store
    | none => { entries := [], last_updated := nowIso }

/-- Embeds the file-level `isRevoked`: load, then scan entries. -/
def isRevokedFile (parseStore : String → Option RevocationStore)
    (file : Option String) (nowIso licenseId : String) : Bool :=
  (loadRevocationStore parseStore file nowIso).entries.any fun e => e.license_id == licenseId

/-- Embeds the file-level `getRevocationInfo`. -/
def getRevocationInfoFile (parseStore : String → Option RevocationStore)
    (file : Option String) (nowIso licenseId : String) : Option RevocationEntry :=
  (loadRevocationStore parseStore file nowIso).entries.find? fun e => e.license_id == licenseId

/-- Embeds `listRevocations`. -/
def listRevocationsFile (parseStore : String → Option RevocationStore)
    (file : Option String) (nowIso : String) : List RevocationEntry :=
  (loadRevocationStore parseStore file nowIso).entries

/-- Embeds `getRevocationCount`. -/
def getRevocationCountFile (parseStore : String → Option RevocationStore)
    (file : Option String) (nowIso : String) : Nat :=
  (loadRevocationStore parseStore file nowIso).entries.length

/-- C10: when the persisted file is absent or its contents fail to
parse, every registry read behaves as if the registry were empty — no
subject is revoked, lookups return nothing, the listing is empty and
the count is zero; a corrupt file silently clears all revocations
rather than raising an error. -/
theorem corrupt_file_reads_empty (parseStore : String → Option RevocationStore)
    (file : Option String) (nowIso : String)
    (h : file = none ∨ ∃ raw, file = some raw ∧ parseStore raw = none) :
    (∀ s : String, isRevokedFile parseStore file nowIso s = false) ∧
    (∀ s : String, getRevocationInfoFile parseStore file nowIso s = none) ∧
    listRevocationsFile parseStore file nowIso = [] ∧
    getRevocationCountFile parseStore file nowIso = 0 := by
  have hload : loadRevocationStore parseStore file nowIso =
      { entries := [], last_updated := nowIso } := by
    rcases h with h | ⟨raw, hf, hp⟩
    · rw [h]
      rfl
    · rw [hf]
      show (match parseStore raw with
        | some store => store
        | none => { entries := [], last_updated := nowIso }) =
        { entries := [], last_updated := nowIso }
      rw [hp]
  refine ⟨?_, ?_, ?_, ?_⟩
  · intro s
    unfold isRevokedFile
    rw [hload]
    rfl
  · intro s
    unfold getRevocationInfoFile
    rw [hload]
    rfl
  · unfold listRevocationsFile
    rw [hload]
  · unfold getRevocationCountFile
    rw [hload]
    rfl

/-- Witness for C10: a concrete unparseable file and a concrete missing
file both read as the empty registry. -/
theorem corrupt_file_reads_empty_witness :
    isRevokedFile (fun _ => none) (some "not json") "t0" "C" = false ∧
    listRevocationsFile (fun _ => none) (some "not json") "t0" = [] ∧
    getRevocationInfoFile (fun _ => none) none "t0" "C" = none ∧
    getRevocationCountFile (fun _ => none) none "t0" = 0 := by
  obtain ⟨a1, -, c1, -⟩ := corrupt_file_reads_empty (fun _ => none) (some "not json") "t0"
    (Or.inr ⟨"not json", rfl, rfl⟩)
  obtain ⟨-, b2, -, d2⟩ := corrupt_file_reads_empty (fun _ => none) none "t0" (Or.inl rfl)
  exact ⟨a1 "C", c1, b2 "C", d2⟩

end VibeCoordinator
